import Mathlib

/-!
Shallow embedding of the multi-channel sample streaming core of the `uhd-usrp`
Rust crate (sample buffers, Rx/Tx stream commands and transfers, time values,
error translation, FFI string handling), together with theorems checking the
design specification against the code.

Modelling conventions:
* Rust `u32`/`usize` values are modelled as `Nat`; `i64` as `Int`, with the
  signed 64-bit range made explicit wherever the code checks or casts it.
* Rust `f64` values are modelled as exact rationals (`F64.finite q`), with the
  special values NaN and the two infinities as dedicated constructors; `f64`
  arithmetic is modelled as exact rational arithmetic.
* A Rust function that can panic is modelled as returning `Option`, where
  `none` is the panic; fallible functions returning `Result` use `Except`.
* Calls across the C FFI boundary are modelled by explicit function
  parameters ("native" oracles); where a claim is about what happens before
  the native call, a `Bool` component of the result records whether the
  native call was reached.
-/

set_option autoImplicit false

/-- Typed error kind of the crate (`UhdError` in `error.rs`).  The variant
`Type` of the Rust enum is spelled `Type'` because `Type` is reserved in
Lean. -/
inductive UhdError where
  | InvalidDevice
  | Index
  | Key
  | NotImplemented
  | Usb
  | Io
  | Os
  | Assertion
  | Lookup
  | Type'
  | Value
  | Runtime
  | Environment
  | System
  | Except
  | BoostExcept
  | StdExcept
  | Unknown
  deriving DecidableEq, Repr

/-- Native `uhd_error` codes (the C enum bound in `uhd-usrp-sys`), modelled as
the closed set of distinct enum members plus `other n` for any `u32` value
outside the enum.  `UhdError::from_sys` matches on exactly these symbolic
constants, with a `_` catch-all. -/
inductive SysErr where
  | none_
  | invalid_device
  | index
  | key
  | not_implemented
  | usb
  | io
  | os
  | assertion
  | lookup
  | type_
  | value
  | runtime
  | environment
  | system
  | except
  | boostexcept
  | stdexcept
  | unknown
  | other (n : Nat)
  deriving DecidableEq, Repr

/-- `UhdError::from_sys` (error.rs:54-79): translate a native error code into
the typed error channel; the native success code translates to no error, and
any code without an explicit match arm falls into the `Unknown` catch-all. -/
def UhdError.from_sys (e : SysErr) : Option UhdError :=
  match e with
  | .none_ => none
  | .invalid_device => some .InvalidDevice
  | .index => some .Index
  | .key => some .Key
  | .not_implemented => some .NotImplemented
  | .usb => some .Usb
  | .io => some .Io
  | .os => some .Os
  | .assertion => some .Assertion
  | .lookup => some .Lookup
  | .type_ => some .Type'
  | .value => some .Value
  | .runtime => some .Runtime
  | .environment => some .Environment
  | .system => some .System
  | .except => some .Except
  | .boostexcept => some .BoostExcept
  | .stdexcept => some .StdExcept
  | _ => some .Unknown

/-- C8: `UhdError::from_sys` maps the native success code to no error, maps the
native index code (and only that code) to the `Index` kind, and maps every
code outside the closed known set to the catch-all `Unknown` kind. -/
theorem C8_from_sys_translation :
    UhdError.from_sys SysErr.none_ = none ∧
    (∀ e : SysErr, UhdError.from_sys e = some UhdError.Index ↔ e = SysErr.index) ∧
    (∀ n : Nat, UhdError.from_sys (SysErr.other n) = some UhdError.Unknown) := by
  refine ⟨rfl, ?_, fun n => rfl⟩
  intro e
  cases e <;> simp [UhdError.from_sys]

/-- Lower bound of Rust's `i64`. -/
def i64Min : Int := -(2 ^ 63)

/-- Upper bound of Rust's `i64`. -/
def i64Max : Int := 2 ^ 63 - 1

/-- Rust's `i64::checked_add`: `none` on overflow of the 64-bit signed range. -/
def i64CheckedAdd (a b : Int) : Option Int :=
  if i64Min ≤ a + b ∧ a + b ≤ i64Max then some (a + b) else none

/-- Rust's `i64::checked_sub`: `none` on overflow of the 64-bit signed range. -/
def i64CheckedSub (a b : Int) : Option Int :=
  if i64Min ≤ a - b ∧ a - b ≤ i64Max then some (a - b) else none

/-- Model of a Rust `f64` value: an exact rational for a finite float, plus the
special values.  Finite-float arithmetic is modelled exactly. -/
inductive F64 where
  | finite (q : Rat)
  | nan
  | inf
  | negInf
  deriving DecidableEq, Repr

/-- `f64::is_nan`. -/
def F64.is_nan : F64 → Bool
  | .nan => true
  | _ => false

/-- `f64::is_infinite`. -/
def F64.is_infinite : F64 → Bool
  | .inf => true
  | .negInf => true
  | _ => false

/-- `f64::trunc` on a finite float: the integer part, rounding toward zero. -/
def ratTrunc (q : Rat) : Int :=
  if q < 0 then ⌈q⌉ else ⌊q⌋

/-- Rust's saturating `as i64` cast applied to an integral float value: values
beyond the `i64` range clamp to the nearest bound. -/
def i64SatCast (n : Int) : Int :=
  max i64Min (min i64Max n)

/-- `TimeSpec` (time.rs): a pair of full seconds (`i64`) and fractional seconds
(`f64`, finite in every constructed value, so stored as a rational). -/
structure TimeSpec where
  full_secs : Int
  frac_secs : Rat
  deriving DecidableEq, Repr

/-- `TimeSpec::ZERO` (time.rs:96): the special value signifying immediate
execution. -/
def TimeSpec.ZERO : TimeSpec := ⟨0, 0⟩

/-- `TimeSpec::MAX` (time.rs:97): `(i64::MAX, 1.0 - f64::EPSILON)` where
`f64::EPSILON = 2^-52`. -/
def TimeSpec.MAX : TimeSpec := ⟨i64Max, 1 - 1 / 2 ^ 52⟩

/-- `TimeSpec::try_from_parts` (time.rs:140-154): reject NaN/infinite
fractions, fold the truncated fraction (cast with Rust's saturating `as i64`)
into the full seconds with `checked_add`, then shift a negative remaining
fraction into `[0,1)` with a compensating `checked_sub` on the full seconds. -/
def TimeSpec.try_from_parts (full_secs : Int) (frac_secs : F64) : Option TimeSpec :=
  if frac_secs.is_nan || frac_secs.is_infinite then none
  else
    match frac_secs with
    | .finite q =>
      match i64CheckedAdd full_secs (i64SatCast (ratTrunc q)) with
      | none => none
      | some fs =>
        let f := q - ratTrunc q
        if f < 0 then
          match i64CheckedSub fs 1 with
          | none => none
          | some fs2 => some ⟨fs2, f + 1⟩
        else
          some ⟨fs, f⟩
    | _ => none

/-- `TimeSpec::is_zero` (time.rs:255-257). -/
def TimeSpec.is_zero (t : TimeSpec) : Bool :=
  t.full_secs == 0 && t.frac_secs == 0

/-- `TimeSpec::checked_add` (time.rs:286-290): checked addition of the full
parts, then renormalisation of the summed fractions via `try_from_parts`. -/
def TimeSpec.checked_add (a b : TimeSpec) : Option TimeSpec :=
  match i64CheckedAdd a.full_secs b.full_secs with
  | none => none
  | some fs => TimeSpec.try_from_parts fs (.finite (a.frac_secs + b.frac_secs))

/-- C5: the claim says `try_from_parts` normalizes every finite input so that
the stored value equals the mathematical sum of the inputs, failing (`none`)
on NaN, infinity, or `i64` overflow, and that `MAX.checked_add` of the
smallest unit fails.  The NaN/infinity/`MAX.checked_add` parts hold, but the
normalization part is violated: at `full_secs = i64::MIN`,
`frac_secs = 2^63` (an exactly representable finite `f64`), the cast
`frac_secs.trunc() as i64` saturates to `i64::MAX`, so the code silently
returns the time `-1 s` although the mathematical sum of the inputs is `0 s`. -/
theorem C5_try_from_parts_saturating_cast_bug :
    TimeSpec.try_from_parts i64Min (F64.finite (2 ^ 63)) = some ⟨-1, 0⟩ ∧
    ((-1 : Rat) + 0 ≠ (i64Min : Rat) + 2 ^ 63) ∧
    TimeSpec.try_from_parts 0 F64.nan = none ∧
    TimeSpec.try_from_parts 0 F64.inf = none ∧
    TimeSpec.checked_add TimeSpec.MAX ⟨0, 1 / 1000000000⟩ = none := by
  refine ⟨?_, ?_, rfl, rfl, ?_⟩
  · have hq : ((2 : ℚ) ^ 63) = ((2 ^ 63 : ℤ) : ℚ) := by push_cast; ring
    have htr : ratTrunc ((2 : ℚ) ^ 63) = 2 ^ 63 := by
      rw [hq, ratTrunc]
      split
      · exact Int.ceil_intCast _
      · exact Int.floor_intCast _
    have hsat : i64SatCast (2 ^ 63) = i64Max := by
      norm_num [i64SatCast, i64Min, i64Max]
    have hadd : i64CheckedAdd i64Min i64Max = some (-1) := by
      norm_num [i64CheckedAdd, i64Min, i64Max]
    unfold TimeSpec.try_from_parts
    simp only [F64.is_nan, F64.is_infinite, Bool.or_self, Bool.false_eq_true,
      if_false, htr, hsat, hadd]
    rw [show ((2 : ℚ) ^ 63 - ((2 ^ 63 : ℤ) : ℚ)) = 0 by rw [hq, sub_self]]
    norm_num
  · simp only [i64Min]
    push_cast
    norm_num
  · have hq : ¬(((1 : ℚ) - 1 / 2 ^ 52 + 1 / 1000000000) < 0) := by norm_num
    have htr : ratTrunc ((1 : ℚ) - 1 / 2 ^ 52 + 1 / 1000000000) = 1 := by
      rw [ratTrunc, if_neg hq]; norm_num
    have hsat : i64SatCast 1 = 1 := by
      norm_num [i64SatCast, i64Min, i64Max]
    have h0 : i64CheckedAdd i64Max 0 = some i64Max := by
      norm_num [i64CheckedAdd, i64Min, i64Max]
    have h1 : i64CheckedAdd i64Max 1 = none := by
      norm_num [i64CheckedAdd, i64Min, i64Max]
    unfold TimeSpec.checked_add TimeSpec.MAX
    simp only [h0, TimeSpec.try_from_parts, F64.is_nan, F64.is_infinite,
      Bool.or_self, Bool.false_eq_true, if_false, htr, hsat, h1]

/-- `uhd_stream_mode_t`: the four stream command modes of the native engine. -/
inductive StreamMode where
  | startContinuous
  | stopContinuous
  | numSampsAndDone
  | numSampsAndMore
  deriving DecidableEq, Repr

/-- `uhd_stream_cmd_t`: the native stream command record, with the scheduled
time in the native two-field (full seconds, fractional seconds) form. -/
structure StreamCmd where
  stream_mode : StreamMode
  num_samps : Nat
  stream_now : Bool
  time_spec_full_secs : Int
  time_spec_frac_secs : Rat
  deriving DecidableEq, Repr

/-- Rust's `usize::MAX` on a 64-bit target. -/
def usizeMax : Nat := 2 ^ 64 - 1

/-- `RxStartCommand` (rx_stream.rs:191-198): the pending start command of the
builder-API Rx stream, holding the scheduled time and the optional
`(sample count, and-done)` limit. -/
structure RxStartCommand where
  at_time : TimeSpec
  limit : Option (Nat × Bool)
  deriving DecidableEq, Repr

/-- `RxStartCommand::new` (rx_stream.rs:204-210): time defaults to
`TimeSpec::ZERO`, no limit. -/
def RxStartCommand.new : RxStartCommand :=
  ⟨TimeSpec.ZERO, none⟩

/-- `RxStartCommand::with_time` (rx_stream.rs:212-215). -/
def RxStartCommand.with_time (c : RxStartCommand) (t : TimeSpec) : RxStartCommand :=
  { c with at_time := t }

/-- `RxStartCommand::with_limit` (rx_stream.rs:217-220). -/
def RxStartCommand.with_limit (c : RxStartCommand) (n : Nat) (and_done : Bool) :
    RxStartCommand :=
  { c with limit := some (n, and_done) }

/-- `RxStartCommand::n_samples` (rx_stream.rs:239-244). -/
def RxStartCommand.n_samples (c : RxStartCommand) : Nat :=
  match c.limit with
  | some (n, _) => n
  | none => usizeMax

/-- `RxStartCommand::stream_mode` (rx_stream.rs:246-252). -/
def RxStartCommand.stream_mode (c : RxStartCommand) : StreamMode :=
  match c.limit with
  | some (_, true) => .numSampsAndDone
  | some (_, false) => .numSampsAndMore
  | none => .startContinuous

/-- The native `uhd_stream_cmd_t` built and issued by `RxStartCommand::send`
(rx_stream.rs:222-237); note the code sets `stream_now: !self.at_time.is_zero()`. -/
def RxStartCommand.send_cmd (c : RxStartCommand) : StreamCmd :=
  { stream_mode := c.stream_mode
    num_samps := c.n_samples
    stream_now := !c.at_time.is_zero
    time_spec_full_secs := c.at_time.full_secs
    time_spec_frac_secs := c.at_time.frac_secs }

/-- C1: the claim says an Rx start command with the default (zero/immediate)
time sends a native command with the stream-now flag set, and a non-zero
scheduled time sends it cleared with the time in two-field form.  The code
has the negation inverted (`stream_now: !self.at_time.is_zero()`): the
default zero time yields `stream_now = false`, and a scheduled time of 1 s
yields `stream_now = true` (while the two time fields do carry the time). -/
theorem C1_stream_now_inverted :
    (RxStartCommand.send_cmd RxStartCommand.new).stream_now = false ∧
    (RxStartCommand.send_cmd (RxStartCommand.new.with_time ⟨1, 0⟩)).stream_now = true ∧
    (RxStartCommand.send_cmd (RxStartCommand.new.with_time ⟨1, 0⟩)).time_spec_full_secs = 1 ∧
    (RxStartCommand.send_cmd (RxStartCommand.new.with_time ⟨1, 0⟩)).time_spec_frac_secs = 0 := by
  refine ⟨?_, ?_, rfl, rfl⟩ <;>
    simp [RxStartCommand.send_cmd, RxStartCommand.new, RxStartCommand.with_time,
      TimeSpec.is_zero, TimeSpec.ZERO]

/-- The three kinds of reader/writer session values a stream hands out. -/
inductive StreamSession where
  /-- `RxStreamReader` of the slice-API revision (rx.rs:153-198). -/
  | rxReaderSlices
  /-- `RxStreamReader` of the builder-API revision (rx_stream.rs:255-342). -/
  | rxReaderBuilder
  /-- `TxStreamWriter` of the builder-API revision (tx_stream.rs:164-232). -/
  | txWriter
  deriving DecidableEq, Repr

/-- The stream commands issued to the native engine when a session value is
torn down (its destructor runs).  Transcribed from the `Drop` implementations:
the slice-API `RxStreamReader` has `impl Drop` issuing a stop-continuous
command (rx.rs:185-198); the builder-API `RxStreamReader` and `TxStreamWriter`
define no `Drop` implementation, so their teardown issues no command. -/
def teardownCommands : StreamSession → List StreamCmd
  | .rxReaderSlices =>
    [{ stream_mode := .stopContinuous
       num_samps := 0
       stream_now := false
       time_spec_full_secs := 0
       time_spec_frac_secs := 0 }]
  | .rxReaderBuilder => []
  | .txWriter => []

/-- C4 counterexample: the claim says every reader/writer session issues a
stop-continuous command on teardown; the `TxStreamWriter` session issues no
command at all when torn down. -/
theorem C4_counterexample_txwriter_no_stop :
    ¬ ∃ c ∈ teardownCommands StreamSession.txWriter,
        c.stream_mode = StreamMode.stopContinuous := by
  simp [teardownCommands]

/-- C4 (amended): only the slice-API `RxStreamReader` issues a stop-continuous
command on teardown (unconditionally, since destructors also run when the
session is abandoned after a failure); the builder-API `RxStreamReader` and
the `TxStreamWriter` issue no command on teardown. -/
theorem C4_amended_teardown_commands :
    (∃ c ∈ teardownCommands StreamSession.rxReaderSlices,
        c.stream_mode = StreamMode.stopContinuous) ∧
    teardownCommands StreamSession.rxReaderBuilder = [] ∧
    teardownCommands StreamSession.txWriter = [] := by
  refine ⟨?_, rfl, rfl⟩
  simp [teardownCommands]

/-- The handle-derived constants an open Rx stream caches at open time
(rx_stream.rs:123-132): its fixed channel count and its maximum
samples-per-call (`samples_per_buffer`). -/
structure RxStreamConsts where
  channels : Nat
  samples_per_buffer : Nat
  deriving DecidableEq, Repr

/-- `RxStreamReader::recv` of the builder-API revision (rx_stream.rs:293-300):
reject the buffer with `UhdError::Index` unless its channel count equals the
stream's channel count and its samples-per-channel equals the stream's
`samples_per_buffer`; otherwise call `uhd_rx_streamer_recv`.  The `native`
parameter models the native receive call on the given samples-per-channel;
the `Bool` component records whether it was reached (only the native call
touches the buffer). -/
def RxStreamReader.recv (st : RxStreamConsts) (native : Nat → Except UhdError Nat)
    (buff_channels buff_samples : Nat) : Except UhdError Nat × Bool :=
  if buff_channels ≠ st.channels ∨ buff_samples ≠ st.samples_per_buffer then
    (Except.error UhdError.Index, false)
  else
    (native buff_samples, true)

/-- C3 counterexample: the claim says a buffer with the matching channel count
passes the pre-native check; on a stream with 2 channels and 512 maximum
samples per call, a buffer of shape (2 channels, 256 samples) matches the
channel count yet is rejected with `UhdError::Index` before the native call. -/
theorem C3_counterexample_matching_channels_rejected :
    RxStreamReader.recv ⟨2, 512⟩ (fun _ => Except.ok 0) 2 256 =
      (Except.error UhdError.Index, false) := rfl

/-- C3 (amended): a buffer whose channel count differs from the stream's is
rejected with `UhdError::Index` before any native call (so the buffer is not
touched), and the pre-native check passes — reaching the native call — iff
both the channel count and the samples-per-channel equal the stream's cached
constants. -/
theorem C3_amended_recv_precheck (st : RxStreamConsts)
    (native : Nat → Except UhdError Nat) (buff_channels buff_samples : Nat) :
    (buff_channels ≠ st.channels →
      RxStreamReader.recv st native buff_channels buff_samples =
        (Except.error UhdError.Index, false)) ∧
    ((RxStreamReader.recv st native buff_channels buff_samples).2 = true ↔
      buff_channels = st.channels ∧ buff_samples = st.samples_per_buffer) := by
  constructor
  · intro h
    unfold RxStreamReader.recv
    rw [if_pos (Or.inl h)]
  · unfold RxStreamReader.recv
    by_cases h1 : buff_channels = st.channels <;>
      by_cases h2 : buff_samples = st.samples_per_buffer <;>
      simp [h1, h2]

/-- Witness for C3 (amended), at a stream with 1 channel and 512 maximum
samples per call and a buffer of 2 channels. -/
theorem C3_amended_recv_precheck_witness :
    RxStreamReader.recv ⟨1, 512⟩ (fun _ => Except.ok 0) 2 512 =
      (Except.error UhdError.Index, false) :=
  (C3_amended_recv_precheck ⟨1, 512⟩ (fun _ => Except.ok 0) 2 512).1 (by decide)

/-- C10: `RxStreamReader::recv` rejects, with `UhdError::Index` and before the
native call, every buffer whose samples-per-channel differs from the stream's
maximum samples-per-call, even when the buffer's channel count matches the
stream's channel count. -/
theorem C10_recv_requires_exact_samples (st : RxStreamConsts)
    (native : Nat → Except UhdError Nat) (buff_samples : Nat)
    (h : buff_samples ≠ st.samples_per_buffer) :
    RxStreamReader.recv st native st.channels buff_samples =
      (Except.error UhdError.Index, false) := by
  unfold RxStreamReader.recv
  rw [if_pos (Or.inr h)]

/-- Witness for C10: a stream with 1 channel and 512 maximum samples per call
rejects a matching-channel buffer of 256 samples per channel. -/
theorem C10_recv_requires_exact_samples_witness :
    RxStreamReader.recv ⟨1, 512⟩ (fun _ => Except.ok 0) 1 256 =
      (Except.error UhdError.Index, false) :=
  C10_recv_requires_exact_samples ⟨1, 512⟩ (fun _ => Except.ok 0) 256 (by decide)

/-- `TxStream::send` of the slice-API revision (tx.rs:73-97): reject the
per-channel slices with `UhdError::Index` when there is more than one slice
and some slice's length differs from the first slice's; otherwise call
`uhd_tx_streamer_send` on `data[0].len()` samples per channel.  `none` models
the panic of the `data[0]` indexing for an empty slice list.  The metadata
marshalling between the check and the native call is elided (it does not
inspect the slices); the `Bool` component records whether the native transfer
call was reached. -/
def TxStream.send {α : Type} (native : Nat → Except UhdError Nat)
    (data : List (List α)) : Option (Except UhdError Nat × Bool) :=
  match data with
  | [] => none
  | d0 :: rest =>
    if 1 < (d0 :: rest).length ∧ ∃ e ∈ d0 :: rest, e.length ≠ d0.length then
      some (Except.error UhdError.Index, false)
    else
      some (native d0.length, true)

/-- C2: any Tx send call on per-channel slices of unequal lengths (two of the
slices have different lengths) returns `UhdError::Index` without reaching the
native transfer call. -/
theorem C2_send_unequal_lengths_rejected {α : Type}
    (native : Nat → Except UhdError Nat) (data : List (List α)) (a b : List α)
    (ha : a ∈ data) (hb : b ∈ data) (hab : a.length ≠ b.length) :
    TxStream.send native data = some (Except.error UhdError.Index, false) := by
  match data, ha with
  | d0 :: rest, ha =>
    simp only [TxStream.send]
    rw [if_pos]
    constructor
    · match rest, ha, hb with
      | [], ha, hb =>
        exact absurd rfl (by
          have h1 : a = d0 := by simpa using ha
          have h2 : b = d0 := by simpa using hb
          rw [h1, h2] at hab
          exact hab)
      | r0 :: rest', _, _ => simp
    · by_cases hd : a.length = d0.length
      · exact ⟨b, hb, fun hbd => hab (hd ▸ hbd ▸ rfl)⟩
      · exact ⟨a, ha, hd⟩

/-- Witness for C2: three channel slices of lengths 2, 1 and 3 are rejected
with `UhdError::Index` before the native call. -/
theorem C2_send_unequal_lengths_rejected_witness :
    TxStream.send (fun n => Except.ok n) [[0, 0], [0], [0, 0, 0]] =
      some (Except.error UhdError.Index, (false : Bool)) :=
  C2_send_unequal_lengths_rejected (fun n => Except.ok n)
    [[0, 0], [0], [(0 : Nat), 0, 0]] [0, 0] [0]
    (by simp) (by simp) (by decide)

/-- `ArrayBuffer` (arraybuffer.rs:13-18): a rectangular channels ×
samples-per-channel sample buffer.  The per-channel raw memory regions are
modelled as lists; the stored `channels` and `samples` fields mirror the
struct fields. -/
structure ArrayBuffer (α : Type) where
  inner : List (List α)
  channels : Nat
  samples : Nat
  deriving DecidableEq, Repr

/-- `ArrayBuffer::with_fill` (arraybuffer.rs:30-44): `channels` regions, each a
`vec![fill; samples]`. -/
def ArrayBuffer.with_fill {α : Type} (channels samples : Nat) (fill : α) :
    ArrayBuffer α :=
  { inner := List.replicate channels (List.replicate samples fill)
    channels := channels
    samples := samples }

/-- `ArrayBuffer::channel` (arraybuffer.rs:152-164): bounds-checked access to
one channel's sample region. -/
def ArrayBuffer.channel {α : Type} (b : ArrayBuffer α) (c : Nat) : Option (List α) :=
  b.inner.get? c

/-- `ArrayBuffer::iter_samples` (arraybuffer.rs:274-279): all samples in
channel-major, sample-minor order. -/
def ArrayBuffer.iter_samples {α : Type} (b : ArrayBuffer α) : List α :=
  b.inner.flatten

/-- Rust's `slice::chunks` with the positive chunk size `k + 1`: successive
sub-slices of `k + 1` elements (the last chunk may be shorter). -/
def chunksPos {α : Type} (k : Nat) (l : List α) : List (List α) :=
  match l with
  | [] => []
  | a :: rest => (a :: rest).take (k + 1) :: chunksPos k ((a :: rest).drop (k + 1))
termination_by l.length
decreasing_by
  simp only [List.length_drop, List.length_cons]
  omega

/-- `ArrayBuffer::from_vec_samples` (arraybuffer.rs:109-126): split a flat
sample list into `channels` equal contiguous chunks of `value.len() /
channels` samples.  `none` models the panics: the `%` by zero for
`channels = 0`, the explicit `panic!` for a non-divisible length, and the
`slice::chunks` panic when the chunk size `value.len() / channels` is zero. -/
def ArrayBuffer.from_vec_samples {α : Type} (channels : Nat) (value : List α) :
    Option (ArrayBuffer α) :=
  if channels = 0 then none
  else if value.length % channels ≠ 0 then none
  else
    match value.length / channels with
    | 0 => none
    | k + 1 => some ⟨chunksPos k value, channels, k + 1⟩

/-- C6: the claim quantifies over every flat sequence of length L and every
channel count C dividing L; at C = 1, L = 0 (so C divides L, and §4.2 calls
the 0-samples-per-channel buffer valid), `from_vec_samples` panics in
`slice::chunks` (chunk size `0 / 1 = 0`) instead of building the 1 × 0
buffer, although its documentation promises a panic only for a non-divisible
length. -/
theorem C6_from_vec_samples_panics_on_empty :
    ArrayBuffer.from_vec_samples 1 ([] : List Nat) = none ∧ (1 ∣ 0) :=
  ⟨rfl, one_dvd 0⟩

/-- C7: for every shape — including zero channels or zero samples per channel —
`ArrayBuffer::with_fill` succeeds (it is total: no panicking operation
occurs), and reading the shape back yields exactly the constructed pair; in
addition the buffer really holds `channels` regions of `samples` samples
each. -/
theorem C7_with_fill_shape {α : Type} (channels samples : Nat) (fill : α) :
    (ArrayBuffer.with_fill channels samples fill).channels = channels ∧
    (ArrayBuffer.with_fill channels samples fill).samples = samples ∧
    (ArrayBuffer.with_fill channels samples fill).inner.length = channels ∧
    ∀ ch ∈ (ArrayBuffer.with_fill channels samples fill).inner,
      ch.length = samples := by
  refine ⟨rfl, rfl, by simp [ArrayBuffer.with_fill], ?_⟩
  intro ch hch
  simp only [ArrayBuffer.with_fill] at hch
  rw [List.eq_of_mem_replicate hch]
  simp

/-- Witness for C7 at the "no data" edge shapes: zero channels, and zero
samples per channel. -/
theorem C7_with_fill_shape_witness :
    (ArrayBuffer.with_fill 0 7 (0 : Nat)).channels = 0 ∧
    (ArrayBuffer.with_fill 0 7 (0 : Nat)).samples = 7 ∧
    (ArrayBuffer.with_fill 3 0 (0 : Nat)).channels = 3 ∧
    (ArrayBuffer.with_fill 3 0 (0 : Nat)).samples = 0 :=
  ⟨(C7_with_fill_shape 0 7 0).1, (C7_with_fill_shape 0 7 0).2.1,
   (C7_with_fill_shape 3 0 0).1, (C7_with_fill_shape 3 0 0).2.1⟩

/-- A UTF-8 continuation byte (`10xxxxxx`). -/
def isUtf8Cont (b : Nat) : Bool :=
  0x80 ≤ b && b ≤ 0xBF

/-- Validity of a byte list as UTF-8 ("valid text encoding"), following the
well-formed byte sequences of RFC 3629 (no overlong forms, no surrogates, no
code points beyond U+10FFFF).  Used to state what Rust's `str::from_utf8`
accepts. -/
def validUtf8 : List Nat → Bool
  | [] => true
  | b :: rest =>
    if b ≤ 0x7F then validUtf8 rest
    else if 0xC2 ≤ b && b ≤ 0xDF then
      match rest with
      | c1 :: r => isUtf8Cont c1 && validUtf8 r
      | [] => false
    else if b = 0xE0 then
      match rest with
      | c1 :: c2 :: r =>
        (0xA0 ≤ c1 && c1 ≤ 0xBF) && isUtf8Cont c2 && validUtf8 r
      | _ => false
    else if (0xE1 ≤ b && b ≤ 0xEC) || b = 0xEE || b = 0xEF then
      match rest with
      | c1 :: c2 :: r => isUtf8Cont c1 && isUtf8Cont c2 && validUtf8 r
      | _ => false
    else if b = 0xED then
      match rest with
      | c1 :: c2 :: r =>
        (0x80 ≤ c1 && c1 ≤ 0x9F) && isUtf8Cont c2 && validUtf8 r
      | _ => false
    else if b = 0xF0 then
      match rest with
      | c1 :: c2 :: c3 :: r =>
        (0x90 ≤ c1 && c1 ≤ 0xBF) && isUtf8Cont c2 && isUtf8Cont c3 && validUtf8 r
      | _ => false
    else if 0xF1 ≤ b && b ≤ 0xF3 then
      match rest with
      | c1 :: c2 :: c3 :: r =>
        isUtf8Cont c1 && isUtf8Cont c2 && isUtf8Cont c3 && validUtf8 r
      | _ => false
    else if b = 0xF4 then
      match rest with
      | c1 :: c2 :: c3 :: r =>
        (0x80 ≤ c1 && c1 ≤ 0x8F) && isUtf8Cont c2 && isUtf8Cont c3 && validUtf8 r
      | _ => false
    else false

/-- Rust's `CStr::from_bytes_until_nul` on the buffer's bytes: the bytes
strictly before the first null byte, or an error (`none`) when the buffer
contains no null terminator within its bounds. -/
def CStr.from_bytes_until_nul (s : List Nat) : Option (List Nat) :=
  if 0 ∈ s then some (s.takeWhile (fun b => b != 0)) else none

/-- `FfiString::into_string` (ffi.rs:41-47): a missing null terminator becomes
`UhdError::Unknown`; otherwise the bytes before the terminator are converted
with `to_string_lossy`, which is total — on invalid UTF-8 it substitutes
U+FFFD replacement characters instead of failing — so the success path is
unconditional.  Only the error-or-success outcome is modelled. -/
def FfiString.into_string (s : List Nat) : Except UhdError Unit :=
  match CStr.from_bytes_until_nul s with
  | none => Except.error UhdError.Unknown
  | some _ => Except.ok ()

/-- C9: the claim says `into_string` returns the Unknown error both when the
buffer has no null terminator and when its contents are not valid text
encoding.  The missing-terminator half holds, but the invalid-encoding half
does not: the buffer `[0xFF, 0x00]` is null-terminated with invalid UTF-8
contents `[0xFF]`, and the code returns success (a lossy string) rather than
the Unknown error its own documentation promises. -/
theorem C9_into_string_lossy_accepts_invalid :
    FfiString.into_string [0xFF, 0x00] = Except.ok () ∧
    CStr.from_bytes_until_nul [0xFF, 0x00] = some [0xFF] ∧
    validUtf8 [0xFF] = false ∧
    FfiString.into_string [0x41, 0x42] = Except.error UhdError.Unknown := by
  refine ⟨?_, ?_, by decide, ?_⟩ <;>
    simp [FfiString.into_string, CStr.from_bytes_until_nul, List.takeWhile]
